import Mathlib

/-!
Shallow embedding of the PhotoShare server (src/server.js): the photo record
data model, the behaviour of the JSON codec used for stored metadata, the
blob-store state, and the HTTP handlers for list, upload, delete, like and
rate.  Line numbers in doc comments refer to src/server.js.
-/

/-- Config constant BLOB_SERVICE_URL (line 14), built from the default storage
account name "photosharestorage". -/
def blobServiceUrl : String := "https://photosharestorage.blob.core.windows.net"

/-- Config constant CONTAINER_NAME (line 11): the image container. -/
def containerName : String := "photos"

/-- Config constant METADATA_CONTAINER (line 12): the metadata container. -/
def metadataContainerName : String := "metadata"

/-- Config constant SAS_TOKEN (line 13): an environment-supplied credential
string with a hard-coded default.  Its exact text plays no role in any
behaviour modelled here, so it is represented by a fixed placeholder string. -/
def sasToken : String := "SAS-TOKEN"

/-- The result of JSON.parse on a stored metadata object: a JavaScript object
whose fields may each be absent.  Numeric fields are modelled as rationals
(JSON numbers), comments as an array of opaque string values, and uploadedAt
by the time value that new Date assigns to the stored ISO-8601 string: the
handlers only copy that string verbatim or compare the corresponding time
values (line 111), so the string is identified with its time value. -/
structure PhotoJson where
  id : Option String
  title : Option String
  caption : Option String
  location : Option String
  tags : Option String
  url : Option String
  fileName : Option String
  likes : Option ℚ
  comments : Option (List String)
  rating : Option ℚ
  ratingCount : Option ℚ
  uploadedAt : Option Nat
deriving DecidableEq, Repr

/-- The bytes of a stored metadata blob, as seen by JSON.parse: either they are
not valid JSON (JSON.parse throws a SyntaxError), or they parse to a JavaScript
object, modelled by the PhotoJson it denotes. -/
inductive MetaBytes where
  | notJson
  | json (o : PhotoJson)
deriving DecidableEq, Repr

/-- The codec failure of section 4.1 of the spec: stored bytes that cannot be
read back as a record. -/
inductive StorageErr where
  | malformedRecord
deriving DecidableEq, Repr

/-- The decode half of the photo record codec, as the code implements it: every
reader calls JSON.parse on the downloaded bytes (lines 104, 246, 292, 337) and
uses the resulting object directly, with no check of its fields.  Parsing fails
exactly when the bytes are not valid JSON. -/
def jsonParse : MetaBytes → Except StorageErr PhotoJson
  | .notJson => .error .malformedRecord
  | .json o => .ok o

/-- A blob container: the association of blob names to stored objects, in the
container's listing order. -/
abbrev Store (α : Type) := List (String × α)

/-- Fetch the object stored under a blob name (the download / exists surface of
the blob client). -/
def lookupStore {α : Type} (s : Store α) (k : String) : Option α :=
  (s.find? (fun e => e.1 == k)).map (fun e => e.2)

/-- Delete the blob with the given name. -/
def removeStore {α : Type} (s : Store α) (k : String) : Store α :=
  s.filter (fun e => !(e.1 == k))

/-- Create-or-overwrite upload of a blob (the upload calls with overwrite
semantics used throughout the handlers). -/
def putStore {α : Type} (s : Store α) (k : String) (v : α) : Store α :=
  (k, v) :: removeStore s k

/-- An image blob: its raw bytes and the content type it was uploaded with
(lines 179-181). -/
structure ImgObject where
  bytes : List Nat
  contentType : String
deriving DecidableEq, Repr

/-- The HTTP error responses the handlers produce: 400, 404 and 500. -/
inductive HErr where
  | badRequest
  | notFound
  | serverError
deriving DecidableEq, Repr

/-- Response body of the like endpoint (line 307): the updated likes value. -/
structure LikeResp where
  likes : Option ℚ
deriving DecidableEq, Repr

/-- Response body of the rate endpoint (line 354): the updated rating and
ratingCount values. -/
structure RateResp where
  rating : Option ℚ
  ratingCount : Option ℚ
deriving DecidableEq, Repr

/-- Response body of the delete endpoint (line 268). -/
structure DeleteResp where
  photoId : String
deriving DecidableEq, Repr

/-- JavaScript addition of a possibly-absent JSON number and a number: an
absent operand makes the result NaN, which is no rational value. -/
def jsAdd : Option ℚ → ℚ → Option ℚ
  | some a, b => some (a + b)
  | none, _ => none

/-- JavaScript multiplication of two possibly-absent JSON numbers. -/
def jsMul : Option ℚ → Option ℚ → Option ℚ
  | some a, some b => some (a * b)
  | _, _ => none

/-- JavaScript division of two possibly-absent JSON numbers.  Division by zero
yields Infinity or NaN in JavaScript, which again is no rational value. -/
def jsDiv : Option ℚ → Option ℚ → Option ℚ
  | some a, some b => if b = 0 then none else some (a / b)
  | _, _ => none

/-- The mutation the like handler applies to the parsed record
(line 294): photo.likes is incremented, nothing else changes. -/
def likeMutation (o : PhotoJson) : PhotoJson :=
  { o with likes := jsAdd o.likes 1 }

/-- The mutation the rate handler applies to the parsed record (lines 339-341):
the new count is the old count plus one, and the new rating is computed from
the old rating, the pre-mutation count and the submitted rating. -/
def rateMutation (o : PhotoJson) (r : ℚ) : PhotoJson :=
  let newRatingCount := jsAdd o.ratingCount 1
  { o with
    rating := jsDiv (jsAdd (jsMul o.rating o.ratingCount) r) newRatingCount,
    ratingCount := newRatingCount }

/-- The repository read that the delete, like and rate handlers each inline
(lines 238-246, 285-292, 330-337): an existence check on the metadata blob
followed by download and JSON.parse; a missing blob is a 404, unparsable bytes
surface as a 500. -/
def getRecord (meta : Store MetaBytes) (pid : String) : Except HErr PhotoJson :=
  match lookupStore meta (pid ++ ".json") with
  | none => .error .notFound
  | some bs =>
    match jsonParse bs with
    | .error _ => .error .serverError
    | .ok o => .ok o

/-- The existence check on a photo's metadata blob (lines 238, 285, 330). -/
def existsRecord (meta : Store MetaBytes) (pid : String) : Bool :=
  (lookupStore meta (pid ++ ".json")).isSome

/-- The like handler (lines 276-312): read-modify-write of the metadata blob,
responding with the updated likes value. -/
def likeHandler (meta : Store MetaBytes) (pid : String) :
    Except HErr (Store MetaBytes × LikeResp) :=
  match lookupStore meta (pid ++ ".json") with
  | none => .error .notFound
  | some bs =>
    match jsonParse bs with
    | .error _ => .error .serverError
    | .ok o =>
      let o2 := likeMutation o
      .ok (putStore meta (pid ++ ".json") (.json o2), { likes := o2.likes })

/-- The rate handler (lines 315-359): the submitted rating is validated before
any storage access (a falsy rating, modelled by 0, or one outside 1..5 is a
400), then the metadata blob is read, mutated and rewritten. -/
def rateHandler (meta : Store MetaBytes) (pid : String) (rating : ℚ) :
    Except HErr (Store MetaBytes × RateResp) :=
  if rating = 0 ∨ rating < 1 ∨ rating > 5 then .error .badRequest
  else
    match lookupStore meta (pid ++ ".json") with
    | none => .error .notFound
    | some bs =>
      match jsonParse bs with
      | .error _ => .error .serverError
      | .ok o =>
        let o2 := rateMutation o rating
        .ok (putStore meta (pid ++ ".json") (.json o2),
          { rating := o2.rating, ratingCount := o2.ratingCount })

/-- The sanitization of a single file-name character (line 144): characters
outside the class a-z A-Z 0-9 dot dash are replaced by an underscore. -/
def sanChar (c : Char) : Char :=
  if ('a' ≤ c ∧ c ≤ 'z') ∨ ('A' ≤ c ∧ c ≤ 'Z') ∨ ('0' ≤ c ∧ c ≤ '9') ∨
      c = '.' ∨ c = '-' then c else '_'

/-- fileName.replace of line 144, applied characterwise. -/
def sanitizeFileName (s : String) : String :=
  String.mk (s.toList.map sanChar)

/-- JavaScript toLowerCase on a single character, for the ASCII range the
handlers use it on (line 173, 175): uppercase letters move down by 32. -/
def jsToLower (c : Char) : Char :=
  if 'A' ≤ c ∧ c ≤ 'Z' then Char.ofNat (c.toNat + 32) else c

/-- JavaScript String.prototype.toLowerCase, characterwise. -/
def jsLowerStr (s : String) : String :=
  String.mk (s.toList.map jsToLower)

/-- JavaScript String.prototype.endsWith: the suffix check used on file names
(lines 173, 175) and on blob names (line 99). -/
def strEndsWith (s suffix : String) : Bool :=
  decide (s.toList.reverse.take suffix.toList.length = suffix.toList.reverse)

/-- Content-type inference of lines 172-177: default image/jpeg, overridden to
image/png or image/gif when the lowercased original file name ends in .png or
.gif respectively. -/
def contentTypeOf (fileName : String) : String :=
  if strEndsWith (jsLowerStr fileName) ".png" then "image/png"
  else if strEndsWith (jsLowerStr fileName) ".gif" then "image/gif"
  else "image/jpeg"

/-- The value of a character in the base64 alphabet, if it belongs to it. -/
def base64Index (c : Char) : Option Nat :=
  if 'A' ≤ c ∧ c ≤ 'Z' then some (c.toNat - 65)
  else if 'a' ≤ c ∧ c ≤ 'z' then some (c.toNat - 97 + 26)
  else if '0' ≤ c ∧ c ≤ '9' then some (c.toNat - 48 + 52)
  else if c = '+' then some 62
  else if c = '/' then some 63
  else none

/-- Decode a list of base64 sextets to bytes: groups of four sextets give three
bytes, a trailing pair gives one byte and a trailing triple gives two. -/
def decodeSextets : List Nat → List Nat
  | a :: b :: c :: d :: rest =>
      (a * 4 + b / 16) :: ((b % 16) * 16 + c / 4) :: ((c % 4) * 64 + d) ::
        decodeSextets rest
  | [a, b] => [a * 4 + b / 16]
  | [a, b, c] => [a * 4 + b / 16, (b % 16) * 16 + c / 4]
  | _ => []

/-- Node's Buffer.from with base64 encoding (lines 164, 166): a forgiving
decoder that skips characters outside the base64 alphabet and never throws.
The claims only ever evaluate it on strings over the plain base64 alphabet,
where every decoder agrees with RFC 4648. -/
def base64Decode (s : String) : List Nat :=
  decodeSextets (s.toList.filterMap base64Index)

/-- JavaScript String.prototype.split with a one-character separator, on
character lists: empty segments are kept, and a trailing separator contributes
a final empty segment, exactly as in JavaScript. -/
def splitChar (sep : Char) : List Char → List (List Char)
  | [] => [[]]
  | c :: rest =>
    match splitChar sep rest with
    | [] => if c = sep then [[], []] else [[c]]
    | h :: t => if c = sep then [] :: h :: t else (c :: h) :: t

/-- JavaScript String.prototype.split with a one-character separator. -/
def jsSplitChar (sep : Char) (s : String) : List String :=
  (splitChar sep s.toList).map String.mk

/-- Containment of one character list in another, used to model
String.prototype.includes. -/
def listContains (needle : List Char) : List Char → Bool
  | [] => needle.isEmpty
  | c :: rest => needle.isPrefixOf (c :: rest) || listContains needle rest

/-- imageData.includes of line 162: the string contains the data-URI marker. -/
def hasBase64Marker (s : String) : Bool :=
  listContains "base64,".toList s.toList

/-- The string the upload handler hands to the base64 decoder (lines 161-167):
with a marker present, imageData.split on commas at index 1, i.e. the segment
between the first and second comma; otherwise the whole string. -/
def base64Payload (imageData : String) : String :=
  if hasBase64Marker imageData then (jsSplitChar ',' imageData).getD 1 ""
  else imageData

/-- The record the upload handler constructs (lines 189-202).  Both clock reads
(Date.now for the id, new Date for uploadedAt) are modelled by the single
instant the request runs at. -/
def newPhoto (title caption location tags fileName : String) (now : Nat) :
    PhotoJson :=
  let photoId := toString now
  let sanitized := sanitizeFileName fileName
  let blobName := photoId ++ "-" ++ sanitized
  { id := some photoId,
    title := some (if title = "" then "Untitled" else title),
    caption := some (if caption = "" then "" else caption),
    location := some (if location = "" then "" else location),
    tags := some (if tags = "" then "" else tags),
    url := some (blobServiceUrl ++ "/" ++ containerName ++ "/" ++ blobName ++
      "?" ++ sasToken),
    fileName := some sanitized,
    likes := some 0,
    comments := some [],
    rating := some 0,
    ratingCount := some 0,
    uploadedAt := some now }

/-- The upload handler (lines 121-225).  Body fields are strings, with an
absent field modelled by the empty string (both are falsy for the validation
checks of lines 128-141).  The two fallible storage writes, the image upload of
line 179 and the metadata upload of line 208, are given failure oracles; a
failure raises an exception that the catch block turns into a 500 after any
writes already performed.  The result is the image container, the metadata
container and the HTTP response. -/
def uploadHandler (img : Store ImgObject) (meta : Store MetaBytes)
    (title caption location tags imageData fileName : String) (now : Nat)
    (imageUploadFails metadataUploadFails : Bool) :
    Store ImgObject × Store MetaBytes × Except HErr PhotoJson :=
  if title = "" then (img, meta, .error .badRequest)
  else if imageData = "" then (img, meta, .error .badRequest)
  else if fileName = "" then (img, meta, .error .badRequest)
  else
    let photoId := toString now
    let sanitized := sanitizeFileName fileName
    let blobName := photoId ++ "-" ++ sanitized
    let buffer := base64Decode (base64Payload imageData)
    let contentType := contentTypeOf fileName
    if imageUploadFails then (img, meta, .error .serverError)
    else
      let img2 := putStore img blobName { bytes := buffer, contentType := contentType }
      let photo := newPhoto title caption location tags fileName now
      if metadataUploadFails then (img2, meta, .error .serverError)
      else (img2, putStore meta (photoId ++ ".json") (.json photo), .ok photo)

/-- Extraction of the image blob name from a record's url (lines 249-251): the
last path segment, truncated at the query separator. -/
def imageKeyOfUrl (url : String) : String :=
  (jsSplitChar '?' ((jsSplitChar '/' url).getLastD "")).headD ""

/-- The delete handler (lines 228-273): a missing metadata blob is a 404; the
stored record is downloaded and parsed, the image blob delete is attempted with
its failure swallowed (lines 256-261, modelled by an oracle), and the metadata
blob is deleted regardless. -/
def deleteHandler (meta : Store MetaBytes) (img : Store ImgObject)
    (pid : String) (imageDeleteFails : Bool) :
    Except HErr (Store MetaBytes × Store ImgObject × DeleteResp) :=
  match lookupStore meta (pid ++ ".json") with
  | none => .error .notFound
  | some bs =>
    match jsonParse bs with
    | .error _ => .error .serverError
    | .ok o =>
      match o.url with
      | none => .error .serverError
      | some u =>
        let blobName := imageKeyOfUrl u
        let img2 := if imageDeleteFails then img else removeStore img blobName
        .ok (removeStore meta (pid ++ ".json"), img2, { photoId := pid })

/-- The collection loop of the list handler (lines 98-109): every blob whose
name ends in .json is downloaded and parsed; a blob whose parse throws is
logged and skipped. -/
def collectPhotos : Store MetaBytes → List PhotoJson
  | [] => []
  | (name, bs) :: rest =>
    if strEndsWith name ".json" then
      match jsonParse bs with
      | .ok o => o :: collectPhotos rest
      | .error _ => collectPhotos rest
    else collectPhotos rest

/-- The sort key of the comparator on line 111: the time value of a record's
uploadedAt.  A record without a parsable uploadedAt gives NaN in JavaScript,
for which the comparator is not consistent and the sort order unspecified; the
model assigns such records time value 0, and every ordering claim concerns
records that carry a timestamp. -/
def dateKey (o : PhotoJson) : Nat :=
  o.uploadedAt.getD 0

/-- The order realised by the comparator of line 111: sorting ascending by the
comparator dateB minus dateA places records with later uploadedAt first. -/
def photoOrder (a b : PhotoJson) : Prop :=
  dateKey b ≤ dateKey a

instance : DecidableRel photoOrder :=
  fun a b => Nat.decLe (dateKey b) (dateKey a)

instance : IsTotal PhotoJson photoOrder :=
  ⟨fun a b => Nat.le_total (dateKey b) (dateKey a)⟩

instance : IsTrans PhotoJson photoOrder :=
  ⟨fun _ _ _ h1 h2 => Nat.le_trans h2 h1⟩

/-- The list handler (lines 82-118): collect the parsable records, then sort
by uploadedAt descending with Array.prototype.sort, which for a consistent
comparator is exactly the stable sort realised by insertion sort with the
non-strict order photoOrder. -/
def listPhotos (meta : Store MetaBytes) : List PhotoJson :=
  List.insertionSort photoOrder (collectPhotos meta)

/-- Looking up a blob right after a create-or-overwrite upload of it yields the
uploaded object. -/
theorem lookupStore_putStore_self {α : Type} (s : Store α) (k : String) (v : α) :
    lookupStore (putStore s k v) k = some v := by
  simp [lookupStore, putStore, List.find?]

/-- Looking up a blob after deleting it yields nothing. -/
theorem lookupStore_removeStore_self {α : Type} (s : Store α) (k : String) :
    lookupStore (removeStore s k) k = none := by
  induction s with
  | nil => rfl
  | cons e rest ih =>
    by_cases h : e.1 == k
    · simp only [removeStore, List.filter_cons, h, Bool.not_true,
        Bool.false_eq_true, if_false] at ih ⊢
      exact ih
    · simp only [removeStore, lookupStore, List.filter_cons, List.find?, h,
        Bool.not_false, if_true] at ih ⊢
      exact ih

/-- A rating in the closed interval from 1 to 5 passes the validation check of
line 321. -/
theorem rate_valid {r : ℚ} (h1 : 1 ≤ r) (h5 : r ≤ 5) :
    ¬ (r = 0 ∨ r < 1 ∨ r > 5) := by
  push_neg
  refine ⟨?_, h1, h5⟩
  intro h0
  rw [h0] at h1
  norm_num at h1

/-- A JavaScript object with every field absent, such as JSON.parse produces
from the bytes of an empty object literal. -/
def emptyPhotoJson : PhotoJson :=
  { id := none, title := none, caption := none, location := none, tags := none,
    url := none, fileName := none, likes := none, comments := none,
    rating := none, ratingCount := none, uploadedAt := none }

/-- A required field in the sense of claim C2 is absent. -/
def requiredFieldMissing (o : PhotoJson) : Bool :=
  o.id.isNone || o.likes.isNone || o.rating.isNone || o.ratingCount.isNone ||
    o.uploadedAt.isNone

/-- Claim C2 as stated is false: decode is bare JSON.parse, so bytes that are
valid JSON but lack every required field still decode successfully; witnessed
by the empty object. -/
theorem c2_counterexample :
    ¬ (∀ bs : MetaBytes,
        (bs = MetaBytes.notJson ∨
            ∃ o, bs = MetaBytes.json o ∧ requiredFieldMissing o = true) →
          ∃ e, jsonParse bs = Except.error e) := by
  intro h
  rcases h (MetaBytes.json emptyPhotoJson)
      (Or.inr ⟨emptyPhotoJson, rfl, by decide⟩) with ⟨e, he⟩
  simp [jsonParse] at he

/-- Claim C2 (amended): decoding fails, with the malformed-record error,
exactly when the bytes are not valid JSON; a valid JSON object is returned
as-is with no check of its fields.  Every reader observes the parse failure:
get, like and rate respond 500 for stored bytes that are not valid JSON, and
the listing's collection loop skips such a blob. -/
theorem c2_decode_fails_iff_not_json :
    (∀ o : PhotoJson, jsonParse (MetaBytes.json o) = Except.ok o) ∧
    jsonParse MetaBytes.notJson = Except.error StorageErr.malformedRecord ∧
    (∀ (meta : Store MetaBytes) (pid : String),
      lookupStore meta (pid ++ ".json") = some MetaBytes.notJson →
        getRecord meta pid = Except.error HErr.serverError ∧
        likeHandler meta pid = Except.error HErr.serverError ∧
        (∀ r : ℚ, 1 ≤ r → r ≤ 5 →
          rateHandler meta pid r = Except.error HErr.serverError)) ∧
    (∀ (meta : Store MetaBytes) (name : String),
      collectPhotos ((name, MetaBytes.notJson) :: meta) = collectPhotos meta) := by
  refine ⟨fun o => rfl, rfl, ?_, ?_⟩
  · intro meta pid hl
    refine ⟨?_, ?_, ?_⟩
    · simp [getRecord, hl, jsonParse]
    · simp [likeHandler, hl, jsonParse]
    · intro r h1 h5
      simp [rateHandler, rate_valid h1 h5, hl, jsonParse]
  · intro meta name
    by_cases h : strEndsWith name ".json"
    · simp [collectPhotos, h, jsonParse]
    · simp [collectPhotos, h]

/-- Witness for the amended claim C2 at a concrete store holding unparsable
bytes. -/
theorem c2_witness :
    getRecord [("p.json", MetaBytes.notJson)] "p" = Except.error HErr.serverError ∧
    likeHandler [("p.json", MetaBytes.notJson)] "p" = Except.error HErr.serverError ∧
    (∀ r : ℚ, 1 ≤ r → r ≤ 5 →
      rateHandler [("p.json", MetaBytes.notJson)] "p" r = Except.error HErr.serverError) :=
  c2_decode_fails_iff_not_json.2.2.1 [("p.json", MetaBytes.notJson)] "p" (by decide)

/-- A fully-populated stored record used to instantiate witnesses. -/
def samplePhoto : PhotoJson :=
  { id := some "1", title := some "t", caption := some "", location := some "",
    tags := some "", url := some "https://x/photos/1-a.jpg?tok",
    fileName := some "a.jpg", likes := some 0, comments := some [],
    rating := some 0, ratingCount := some 0, uploadedAt := some 1 }

/-- Claim C8: for an existing record the delete handler deletes the metadata
blob and succeeds whether or not the image-blob delete fails (the failure is
swallowed, never propagated); afterwards the existence check is false and a
subsequent get answers not-found. -/
theorem c8_delete_swallows_image_failure :
    ∀ (meta : Store MetaBytes) (img : Store ImgObject) (pid : String)
      (o : PhotoJson) (u : String) (imageDeleteFails : Bool),
      lookupStore meta (pid ++ ".json") = some (MetaBytes.json o) →
      o.url = some u →
      ∃ img2 : Store ImgObject,
        deleteHandler meta img pid imageDeleteFails =
          Except.ok (removeStore meta (pid ++ ".json"), img2, { photoId := pid }) ∧
        (imageDeleteFails = true → img2 = img) ∧
        existsRecord (removeStore meta (pid ++ ".json")) pid = false ∧
        getRecord (removeStore meta (pid ++ ".json")) pid = Except.error HErr.notFound := by
  intro meta img pid o u f hl hu
  refine ⟨if f then img else removeStore img (imageKeyOfUrl u), ?_, ?_, ?_, ?_⟩
  · simp [deleteHandler, hl, jsonParse, hu]
  · intro hf
    simp [hf]
  · simp [existsRecord, lookupStore_removeStore_self]
  · simp [getRecord, lookupStore_removeStore_self]

/-- Witness for claim C8 at a concrete store, with the image delete failing. -/
theorem c8_witness :
    ∃ img2 : Store ImgObject,
      deleteHandler [("1.json", MetaBytes.json samplePhoto)] [] "1" true =
        Except.ok (removeStore [("1.json", MetaBytes.json samplePhoto)] ("1" ++ ".json"),
          img2, { photoId := "1" }) ∧
      (true = true → img2 = []) ∧
      existsRecord (removeStore [("1.json", MetaBytes.json samplePhoto)] ("1" ++ ".json")) "1" = false ∧
      getRecord (removeStore [("1.json", MetaBytes.json samplePhoto)] ("1" ++ ".json")) "1" =
        Except.error HErr.notFound :=
  c8_delete_swallows_image_failure [("1.json", MetaBytes.json samplePhoto)]
    [] "1" samplePhoto "https://x/photos/1-a.jpg?tok" true (by decide) (by decide)

/-- Claim C9: in the upload handler the image write precedes the metadata
write.  If the image upload fails, neither container changes and no metadata is
written; if the metadata upload fails after a successful image upload, the
image object is already stored and is not rolled back, while the metadata
container is unchanged. -/
theorem c9_upload_side_effect_order :
    ∀ (img : Store ImgObject) (meta : Store MetaBytes)
      (title caption location tags imageData fileName : String) (now : Nat)
      (metadataUploadFails : Bool),
      title ≠ "" → imageData ≠ "" → fileName ≠ "" →
      uploadHandler img meta title caption location tags imageData fileName now
          true metadataUploadFails = (img, meta, Except.error HErr.serverError) ∧
      uploadHandler img meta title caption location tags imageData fileName now
          false true =
        (putStore img (toString now ++ "-" ++ sanitizeFileName fileName)
            { bytes := base64Decode (base64Payload imageData),
              contentType := contentTypeOf fileName },
          meta, Except.error HErr.serverError) := by
  intro img meta t cap loc tg dat fn now f2 ht hd hf
  constructor
  · simp [uploadHandler, ht, hd, hf]
  · simp [uploadHandler, ht, hd, hf]

/-- Witness for claim C9 on concrete inputs. -/
theorem c9_witness :
    uploadHandler [] [] "t" "" "" "" "QUJD" "a.jpg" 7 true false =
      ([], [], Except.error HErr.serverError) ∧
    uploadHandler [] [] "t" "" "" "" "QUJD" "a.jpg" 7 false true =
      (putStore [] (toString 7 ++ "-" ++ sanitizeFileName "a.jpg")
          { bytes := base64Decode (base64Payload "QUJD"),
            contentType := contentTypeOf "a.jpg" },
        [], Except.error HErr.serverError) :=
  c9_upload_side_effect_order [] [] "t" "" "" "" "QUJD" "a.jpg" 7 false
    (by decide) (by decide) (by decide)

/-- Claim C10: the like handler rewrites the stored record with only likes
changed, and the rate handler with only rating and ratingCount changed; every
other field of the persisted record equals its stored value. -/
theorem c10_mutations_frame :
    (∀ (meta : Store MetaBytes) (pid : String) (o : PhotoJson),
      lookupStore meta (pid ++ ".json") = some (MetaBytes.json o) →
      ∃ o2 : PhotoJson,
        likeHandler meta pid =
          Except.ok (putStore meta (pid ++ ".json") (MetaBytes.json o2),
            { likes := o2.likes }) ∧
        o2.likes = jsAdd o.likes 1 ∧
        o2.id = o.id ∧ o2.title = o.title ∧ o2.caption = o.caption ∧
        o2.location = o.location ∧ o2.tags = o.tags ∧ o2.url = o.url ∧
        o2.fileName = o.fileName ∧ o2.comments = o.comments ∧
        o2.rating = o.rating ∧ o2.ratingCount = o.ratingCount ∧
        o2.uploadedAt = o.uploadedAt) ∧
    (∀ (meta : Store MetaBytes) (pid : String) (o : PhotoJson) (r : ℚ),
      1 ≤ r → r ≤ 5 →
      lookupStore meta (pid ++ ".json") = some (MetaBytes.json o) →
      ∃ o2 : PhotoJson,
        rateHandler meta pid r =
          Except.ok (putStore meta (pid ++ ".json") (MetaBytes.json o2),
            { rating := o2.rating, ratingCount := o2.ratingCount }) ∧
        o2.rating = jsDiv (jsAdd (jsMul o.rating o.ratingCount) r) (jsAdd o.ratingCount 1) ∧
        o2.ratingCount = jsAdd o.ratingCount 1 ∧
        o2.id = o.id ∧ o2.title = o.title ∧ o2.caption = o.caption ∧
        o2.location = o.location ∧ o2.tags = o.tags ∧ o2.url = o.url ∧
        o2.fileName = o.fileName ∧ o2.likes = o.likes ∧ o2.comments = o.comments ∧
        o2.uploadedAt = o.uploadedAt) := by
  constructor
  · intro meta pid o hl
    refine ⟨likeMutation o, ?_, rfl, rfl, rfl, rfl, rfl, rfl, rfl, rfl, rfl,
      rfl, rfl, rfl⟩
    simp [likeHandler, hl, jsonParse, likeMutation]
  · intro meta pid o r h1 h5 hl
    refine ⟨rateMutation o r, ?_, rfl, rfl, rfl, rfl, rfl, rfl, rfl, rfl, rfl,
      rfl, rfl, rfl⟩
    simp [rateHandler, rate_valid h1 h5, hl, jsonParse, rateMutation]

/-- Witness for claim C10 at a concrete store and rating. -/
theorem c10_witness :
    ∃ o2 : PhotoJson,
      rateHandler [("1.json", MetaBytes.json samplePhoto)] "1" 3 =
        Except.ok (putStore [("1.json", MetaBytes.json samplePhoto)]
            ("1" ++ ".json") (MetaBytes.json o2),
          { rating := o2.rating, ratingCount := o2.ratingCount }) ∧
      o2.rating = jsDiv (jsAdd (jsMul samplePhoto.rating samplePhoto.ratingCount) 3)
        (jsAdd samplePhoto.ratingCount 1) ∧
      o2.ratingCount = jsAdd samplePhoto.ratingCount 1 ∧
      o2.id = samplePhoto.id ∧ o2.title = samplePhoto.title ∧
      o2.caption = samplePhoto.caption ∧ o2.location = samplePhoto.location ∧
      o2.tags = samplePhoto.tags ∧ o2.url = samplePhoto.url ∧
      o2.fileName = samplePhoto.fileName ∧ o2.likes = samplePhoto.likes ∧
      o2.comments = samplePhoto.comments ∧ o2.uploadedAt = samplePhoto.uploadedAt :=
  c10_mutations_frame.2 [("1.json", MetaBytes.json samplePhoto)] "1" samplePhoto 3
    (by norm_num) (by norm_num) (by decide)

/-- A freshly uploaded record: rating 0 and ratingCount 0, the shape claim C1
starts its concrete scenario from. -/
def freshPhoto : PhotoJson :=
  { id := some "p", title := some "t", caption := some "", location := some "",
    tags := some "", url := some "u", fileName := some "f", likes := some 0,
    comments := some [], rating := some 0, ratingCount := some 0,
    uploadedAt := some 2 }

/-- Sequential submission of a list of ratings for one photo, each through the
rate handler, propagating the stored state. -/
def rateSeq (pid : String) : Store MetaBytes → List ℚ → Except HErr (Store MetaBytes)
  | meta, [] => .ok meta
  | meta, r :: rs =>
    match rateHandler meta pid r with
    | .error e => .error e
    | .ok (m2, _) => rateSeq pid m2 rs

/-- Claim C1: for a stored record with rating mean m and count c and a
submitted rating between 1 and 5, the rate handler persists and returns the
new mean computed with the pre-mutation count, (m * c + r) / (c + 1), and the
new count c + 1; and submitting the ratings 5, 3, 4 to a fresh record yields
ratingCount 3 and rating 4. -/
theorem c1_rate_mean :
    (∀ (meta : Store MetaBytes) (pid : String) (o : PhotoJson) (m c r : ℚ),
      lookupStore meta (pid ++ ".json") = some (MetaBytes.json o) →
      o.rating = some m → o.ratingCount = some c → 0 ≤ c →
      1 ≤ r → r ≤ 5 →
      ∃ meta2 : Store MetaBytes,
        rateHandler meta pid r =
          Except.ok (meta2,
            { rating := some ((m * c + r) / (c + 1)),
              ratingCount := some (c + 1) }) ∧
        lookupStore meta2 (pid ++ ".json") =
          some (MetaBytes.json (rateMutation o r)) ∧
        (rateMutation o r).rating = some ((m * c + r) / (c + 1)) ∧
        (rateMutation o r).ratingCount = some (c + 1)) ∧
    (∃ (meta2 : Store MetaBytes) (o2 : PhotoJson),
      rateSeq "p" [("p.json", MetaBytes.json freshPhoto)] [5, 3, 4] =
        Except.ok meta2 ∧
      getRecord meta2 "p" = Except.ok o2 ∧
      o2.rating = some 4 ∧ o2.ratingCount = some 3) := by
  constructor
  · intro meta pid o m c r hl hm hc hc0 h1 h5
    have hne : c + 1 ≠ 0 := ne_of_gt (by linarith)
    refine ⟨putStore meta (pid ++ ".json") (MetaBytes.json (rateMutation o r)),
      ?_, lookupStore_putStore_self .., ?_, ?_⟩
    · simp [rateHandler, rate_valid h1 h5, hl, jsonParse, rateMutation, hm, hc,
        jsMul, jsAdd, jsDiv, hne]
    · simp [rateMutation, hm, hc, jsMul, jsAdd, jsDiv, hne]
    · simp [rateMutation, hc, jsAdd]
  · have happ : ("p" ++ ".json") = "p.json" := rfl
    refine ⟨[("p" ++ ".json",
        MetaBytes.json { freshPhoto with rating := some 4, ratingCount := some 3 })],
      { freshPhoto with rating := some 4, ratingCount := some 3 }, ?_, ?_, rfl, rfl⟩
    · norm_num [rateSeq, rateHandler, lookupStore, putStore, removeStore,
        freshPhoto, jsonParse, rateMutation, jsMul, jsAdd, jsDiv, List.find?,
        List.filter, happ]
    · norm_num [getRecord, lookupStore, jsonParse, List.find?, happ]

/-- Witness for claim C1 at a concrete store and rating. -/
theorem c1_witness :
    ∃ meta2 : Store MetaBytes,
      rateHandler [("1.json", MetaBytes.json samplePhoto)] "1" 5 =
        Except.ok (meta2,
          { rating := some ((0 * 0 + 5) / (0 + 1)),
            ratingCount := some ((0:ℚ) + 1) }) ∧
      lookupStore meta2 ("1" ++ ".json") =
        some (MetaBytes.json (rateMutation samplePhoto 5)) ∧
      (rateMutation samplePhoto 5).rating = some ((0 * 0 + 5) / (0 + 1)) ∧
      (rateMutation samplePhoto 5).ratingCount = some ((0:ℚ) + 1) :=
  c1_rate_mean.1 [("1.json", MetaBytes.json samplePhoto)] "1" samplePhoto 0 0 5
    (by decide) rfl rfl (by norm_num) (by norm_num) (by norm_num)

/-- The record invariant of claim C5: the stored rating is the arithmetic mean
of exactly ratingCount submitted values, each between 1 and 5; in particular
the count is a non-negative integer and a zero count forces rating zero. -/
def RatingInvariant (o : PhotoJson) : Prop :=
  ∃ l : List ℚ, (∀ x ∈ l, 1 ≤ x ∧ x ≤ 5) ∧
    o.ratingCount = some ((l.length : ℚ)) ∧
    o.rating = some (l.sum / (l.length : ℚ))

/-- Claim C5: upload creates a record satisfying the rating invariant, and the
like and rate handlers (the latter for a rating between 1 and 5) persist a
record that satisfies it whenever the stored record did. -/
theorem c5_operations_preserve_invariant :
    (∀ (img : Store ImgObject) (meta : Store MetaBytes)
      (title caption location tags imageData fileName : String) (now : Nat)
      (f1 f2 : Bool) (img2 : Store ImgObject) (meta2 : Store MetaBytes)
      (photo : PhotoJson),
      uploadHandler img meta title caption location tags imageData fileName now
          f1 f2 = (img2, meta2, Except.ok photo) →
      RatingInvariant photo) ∧
    (∀ (meta : Store MetaBytes) (pid : String) (o : PhotoJson),
      lookupStore meta (pid ++ ".json") = some (MetaBytes.json o) →
      RatingInvariant o →
      ∃ (o2 : PhotoJson) (resp : LikeResp),
        likeHandler meta pid =
          Except.ok (putStore meta (pid ++ ".json") (MetaBytes.json o2), resp) ∧
        RatingInvariant o2) ∧
    (∀ (meta : Store MetaBytes) (pid : String) (o : PhotoJson) (r : ℚ),
      1 ≤ r → r ≤ 5 →
      lookupStore meta (pid ++ ".json") = some (MetaBytes.json o) →
      RatingInvariant o →
      ∃ (o2 : PhotoJson) (resp : RateResp),
        rateHandler meta pid r =
          Except.ok (putStore meta (pid ++ ".json") (MetaBytes.json o2), resp) ∧
        RatingInvariant o2) := by
  refine ⟨?_, ?_, ?_⟩
  · intro img meta t cap loc tg dat fn now f1 f2 img2 meta2 photo h
    by_cases h1 : t = ""
    · simp [uploadHandler, h1] at h
    · by_cases h2 : dat = ""
      · simp [uploadHandler, h1, h2] at h
      · by_cases h3 : fn = ""
        · simp [uploadHandler, h1, h2, h3] at h
        · cases f1 with
          | true => simp [uploadHandler, h1, h2, h3] at h
          | false =>
            cases f2 with
            | true => simp [uploadHandler, h1, h2, h3] at h
            | false =>
              simp [uploadHandler, h1, h2, h3] at h
              obtain ⟨-, -, hph⟩ := h
              subst hph
              exact ⟨[], by simp, by simp [newPhoto], by simp [newPhoto]⟩
  · intro meta pid o hl hinv
    refine ⟨likeMutation o, { likes := (likeMutation o).likes }, ?_, ?_⟩
    · simp [likeHandler, hl, jsonParse]
    · obtain ⟨l, hb, hc, hr⟩ := hinv
      exact ⟨l, hb, hc, hr⟩
  · intro meta pid o r h1 h5 hl hinv
    obtain ⟨l, hb, hc, hr⟩ := hinv
    refine ⟨rateMutation o r,
      { rating := (rateMutation o r).rating,
        ratingCount := (rateMutation o r).ratingCount }, ?_, ?_⟩
    · simp [rateHandler, rate_valid h1 h5, hl, jsonParse]
    · have hlen : ((l.length : ℚ)) + 1 ≠ 0 := by positivity
      refine ⟨r :: l, ?_, ?_, ?_⟩
      · intro x hx
        rcases List.mem_cons.mp hx with rfl | hx
        · exact ⟨h1, h5⟩
        · exact hb x hx
      · simp [rateMutation, hc, jsAdd, List.length_cons]
      · simp [rateMutation, hc, hr, jsMul, jsAdd, jsDiv, hlen, List.sum_cons,
          List.length_cons]
        rcases eq_or_ne l.length 0 with h0 | h0
        · have hnil : l = [] := List.length_eq_zero.mp h0
          subst hnil
          norm_num
        · have hlq : ((l.length : ℚ)) ≠ 0 := Nat.cast_ne_zero.mpr h0
          rw [div_mul_cancel₀ _ hlq]
          ring

/-- Witness for claim C5: the rate handler applied to a concrete stored record
satisfying the invariant. -/
theorem c5_witness :
    ∃ (o2 : PhotoJson) (resp : RateResp),
      rateHandler [("1.json", MetaBytes.json samplePhoto)] "1" 2 =
        Except.ok (putStore [("1.json", MetaBytes.json samplePhoto)]
            ("1" ++ ".json") (MetaBytes.json o2), resp) ∧
      RatingInvariant o2 :=
  c5_operations_preserve_invariant.2.2 [("1.json", MetaBytes.json samplePhoto)]
    "1" samplePhoto 2 (by norm_num) (by norm_num) (by decide)
    ⟨[], fun x hx => absurd hx (List.not_mem_nil x),
      by norm_num [samplePhoto], by norm_num [samplePhoto]⟩

/-- The suffix of a character list after the first occurrence of an infix. -/
def dropThroughInfix (needle : List Char) : List Char → List Char
  | [] => []
  | c :: rest =>
    if needle.isPrefixOf (c :: rest) then (c :: rest).drop needle.length
    else dropThroughInfix needle rest

/-- Modelled from the spec words of claim C3: the base64 payload is the
substring after the first occurrence of the data-URI marker when the marker is
present, and the whole string otherwise. -/
def specBase64Payload (s : String) : String :=
  if hasBase64Marker s then String.mk (dropThroughInfix "base64,".toList s.toList)
  else s

/-- Claim C3 as stated is false: when the marker is present the code decodes
imageData.split on commas at index 1, the segment between the first and second
comma, not the substring after the marker.  On the input
AA,BBBBbase64,CCCC the code uploads the decoding of BBBBbase64 while the
claim requires the decoding of CCCC. -/
theorem c3_counterexample :
    ¬ (∀ (img : Store ImgObject) (meta : Store MetaBytes)
        (title caption location tags imageData fileName : String) (now : Nat),
        title ≠ "" → imageData ≠ "" → fileName ≠ "" →
        (uploadHandler img meta title caption location tags imageData fileName
            now false false).1 =
          putStore img (toString now ++ "-" ++ sanitizeFileName fileName)
            { bytes := base64Decode (specBase64Payload imageData),
              contentType := contentTypeOf fileName }) := by
  intro h
  have hc := h [] [] "t" "" "" "" "AA,BBBBbase64,CCCC" "a.jpg" 1
    (by decide) (by decide) (by decide)
  revert hc
  decide

/-- Claim C3 (amended): when the marker is present the uploaded bytes are the
base64 decoding of imageData.split on commas at index 1 — the segment between
the first and second comma, which is the substring after the marker exactly
when the marker's comma is the first comma of the string — and otherwise of
the whole string; the decoder is total (Node's forgiving base64), so no
decode-failure path and hence no validation error exists. -/
theorem c3_amended_payload :
    ∀ (img : Store ImgObject) (meta : Store MetaBytes)
      (title caption location tags imageData fileName : String) (now : Nat)
      (metadataUploadFails : Bool),
      title ≠ "" → imageData ≠ "" → fileName ≠ "" →
      (uploadHandler img meta title caption location tags imageData fileName
          now false metadataUploadFails).1 =
        putStore img (toString now ++ "-" ++ sanitizeFileName fileName)
          { bytes := base64Decode
              (if hasBase64Marker imageData
               then (jsSplitChar ',' imageData).getD 1 ""
               else imageData),
            contentType := contentTypeOf fileName } := by
  intro img meta t cap loc tg dat fn now f2 ht hd hf
  cases f2 <;> simp [uploadHandler, ht, hd, hf, base64Payload]

/-- Witness for the amended claim C3 on a well-formed data URI. -/
theorem c3_witness :
    (uploadHandler [] [] "t" "" "" "" "data:image/png;base64,QUJD" "a.jpg" 7
        false false).1 =
      putStore [] (toString 7 ++ "-" ++ sanitizeFileName "a.jpg")
        { bytes := base64Decode
            (if hasBase64Marker "data:image/png;base64,QUJD"
             then (jsSplitChar ',' "data:image/png;base64,QUJD").getD 1 ""
             else "data:image/png;base64,QUJD"),
          contentType := contentTypeOf "a.jpg" } :=
  c3_amended_payload [] [] "t" "" "" "" "data:image/png;base64,QUJD" "a.jpg" 7
    false (by decide) (by decide) (by decide)

/-- Dropping the unparsable blobs from a container does not change what the
collection loop gathers. -/
theorem collectPhotos_filter_notJson (meta : Store MetaBytes) :
    collectPhotos (meta.filter (fun e => !decide (e.2 = MetaBytes.notJson))) =
      collectPhotos meta := by
  induction meta with
  | nil => rfl
  | cons e rest ih =>
    obtain ⟨name, bs⟩ := e
    cases bs with
    | notJson =>
      by_cases h : strEndsWith name ".json" <;>
        simp [List.filter_cons, collectPhotos, jsonParse, h, ih]
    | json o =>
      by_cases h : strEndsWith name ".json" <;>
        simp [List.filter_cons, collectPhotos, jsonParse, h, ih]

/-- Every stored record whose blob name carries the .json suffix and whose
bytes parse is gathered by the collection loop. -/
theorem mem_collectPhotos_of_mem (meta : Store MetaBytes) (name : String)
    (o : PhotoJson) (hmem : (name, MetaBytes.json o) ∈ meta)
    (hend : strEndsWith name ".json" = true) :
    o ∈ collectPhotos meta := by
  induction meta with
  | nil => cases hmem
  | cons e rest ih =>
    rcases List.mem_cons.mp hmem with he | hmem2
    · rw [← he]
      simp [collectPhotos, hend, jsonParse]
    · obtain ⟨n2, b2⟩ := e
      have hrec := ih hmem2
      by_cases h2 : strEndsWith n2 ".json"
      · cases b2 with
        | notJson => simpa [collectPhotos, h2, jsonParse] using hrec
        | json o2 =>
          simp [collectPhotos, h2, jsonParse]
          exact Or.inr hrec
      · simpa [collectPhotos, h2] using hrec

/-- Claim C7: blobs that fail to decode are skipped without failing the
listing — the listing of a container equals the listing of the container with
its unparsable blobs removed — and every record that decodes successfully is
returned. -/
theorem c7_corrupt_record_isolation :
    (∀ meta : Store MetaBytes,
      listPhotos meta =
        listPhotos (meta.filter (fun e => !decide (e.2 = MetaBytes.notJson)))) ∧
    (∀ (meta : Store MetaBytes) (name : String) (o : PhotoJson),
      (name, MetaBytes.json o) ∈ meta → strEndsWith name ".json" = true →
      o ∈ listPhotos meta) := by
  constructor
  · intro meta
    unfold listPhotos
    rw [collectPhotos_filter_notJson]
  · intro meta name o hmem hend
    unfold listPhotos
    exact (List.mem_insertionSort photoOrder).mpr
      (mem_collectPhotos_of_mem meta name o hmem hend)

/-- Witness for claim C7: a container with one good and one corrupt blob still
lists the good record. -/
theorem c7_witness :
    samplePhoto ∈ listPhotos
      [("1.json", MetaBytes.json samplePhoto), ("bad.json", MetaBytes.notJson)] :=
  c7_corrupt_record_isolation.2 _ "1.json" samplePhoto
    (List.mem_cons_self _ _) (by decide)

/-- Inserting a record into a list with the comparator's order keeps, for each
time value, the subsequence of records carrying it intact, with the new record
after the existing ties: the stability of the sort. -/
theorem filter_key_orderedInsert (k : Nat) (a : PhotoJson) (l : List PhotoJson) :
    (List.orderedInsert photoOrder a l).filter (fun o => decide (dateKey o = k)) =
      if dateKey a = k then
        a :: l.filter (fun o => decide (dateKey o = k))
      else l.filter (fun o => decide (dateKey o = k)) := by
  induction l with
  | nil =>
    by_cases h : dateKey a = k <;> simp [List.orderedInsert, h]
  | cons b bs ih =>
    by_cases hab : photoOrder a b
    · by_cases ha : dateKey a = k <;>
        simp [List.orderedInsert, hab, List.filter_cons, ha]
    · have hba : dateKey a < dateKey b := by
        have h2 := hab
        simp only [photoOrder, not_le] at h2
        exact h2
      by_cases ha : dateKey a = k
      · have hb : ¬ dateKey b = k := by omega
        simp [List.orderedInsert, hab, List.filter_cons, ha, hb, ih]
      · simp [List.orderedInsert, hab, List.filter_cons, ha, ih]

/-- The insertion sort of the listing keeps, for each time value, the
subsequence of records carrying it in the order the collection produced. -/
theorem filter_key_insertionSort (k : Nat) (l : List PhotoJson) :
    (List.insertionSort photoOrder l).filter (fun o => decide (dateKey o = k)) =
      l.filter (fun o => decide (dateKey o = k)) := by
  induction l with
  | nil => rfl
  | cons a l ih =>
    rw [List.insertionSort, filter_key_orderedInsert, ih, List.filter_cons]
    by_cases h : dateKey a = k <;> simp [h]

/-- Claim C6: the listing is sorted by uploadedAt descending; records with
equal uploadedAt keep the relative order the collection loop returned them in;
and three records with timestamps t1 less than t2 less than t3 are listed as
t3, t2, t1. -/
theorem c6_listing_sorted_descending :
    (∀ meta : Store MetaBytes, List.Sorted photoOrder (listPhotos meta)) ∧
    (∀ (meta : Store MetaBytes) (k : Nat),
      (listPhotos meta).filter (fun o => decide (dateKey o = k)) =
        (collectPhotos meta).filter (fun o => decide (dateKey o = k))) ∧
    (∀ (t1 t2 t3 : Nat) (o1 o2 o3 : PhotoJson),
      t1 < t2 → t2 < t3 →
      o1.uploadedAt = some t1 → o2.uploadedAt = some t2 →
      o3.uploadedAt = some t3 →
      listPhotos [("1.json", MetaBytes.json o1), ("2.json", MetaBytes.json o2),
        ("3.json", MetaBytes.json o3)] = [o3, o2, o1]) := by
  refine ⟨?_, ?_, ?_⟩
  · intro meta
    exact List.sorted_insertionSort photoOrder (collectPhotos meta)
  · intro meta k
    exact filter_key_insertionSort k (collectPhotos meta)
  · intro t1 t2 t3 o1 o2 o3 h12 h23 hu1 hu2 hu3
    have k1 : dateKey o1 = t1 := by simp [dateKey, hu1]
    have k2 : dateKey o2 = t2 := by simp [dateKey, hu2]
    have k3 : dateKey o3 = t3 := by simp [dateKey, hu3]
    have e1 : strEndsWith "1.json" ".json" = true := by decide
    have e2 : strEndsWith "2.json" ".json" = true := by decide
    have e3 : strEndsWith "3.json" ".json" = true := by decide
    have hcol : collectPhotos [("1.json", MetaBytes.json o1),
        ("2.json", MetaBytes.json o2), ("3.json", MetaBytes.json o3)] =
        [o1, o2, o3] := by
      simp [collectPhotos, jsonParse, e1, e2, e3]
    unfold listPhotos
    rw [hcol]
    have p23 : ¬ photoOrder o2 o3 := by
      simp only [photoOrder, not_le, k2, k3]
      omega
    have p13 : ¬ photoOrder o1 o3 := by
      simp only [photoOrder, not_le, k1, k3]
      omega
    have p12 : ¬ photoOrder o1 o2 := by
      simp only [photoOrder, not_le, k1, k2]
      omega
    simp [List.insertionSort, List.orderedInsert, p23, p13, p12]

/-- Witness for claim C6 at three concrete records with timestamps 1, 2, 3. -/
theorem c6_witness :
    listPhotos
      [("1.json", MetaBytes.json { samplePhoto with uploadedAt := some 1 }),
       ("2.json", MetaBytes.json { samplePhoto with uploadedAt := some 2 }),
       ("3.json", MetaBytes.json { samplePhoto with uploadedAt := some 3 })] =
      [{ samplePhoto with uploadedAt := some 3 },
       { samplePhoto with uploadedAt := some 2 },
       { samplePhoto with uploadedAt := some 1 }] :=
  c6_listing_sorted_descending.2.2 1 2 3
    { samplePhoto with uploadedAt := some 1 }
    { samplePhoto with uploadedAt := some 2 }
    { samplePhoto with uploadedAt := some 3 }
    (by norm_num) (by norm_num) rfl rfl rfl

/-- The characters the content-type extensions are spelt with. -/
def extTargetChar (d : Char) : Prop :=
  d = '.' ∨ d = 'p' ∨ d = 'n' ∨ d = 'g' ∨ d = 'i' ∨ d = 'f'

instance (d : Char) : Decidable (extTargetChar d) := by
  unfold extTargetChar
  infer_instance

/-- Sanitization is invisible to the extension check: for any character of the
extension alphabet, the lowercased sanitized character matches it exactly when
the lowercased original does, since every character that can lowercase to one
of them is kept by the sanitizer. -/
theorem jsToLower_sanChar_target (c d : Char) (hd : extTargetChar d) :
    jsToLower (sanChar c) = d ↔ jsToLower c = d := by
  by_cases hc : ('a' ≤ c ∧ c ≤ 'z') ∨ ('A' ≤ c ∧ c ≤ 'Z') ∨
      ('0' ≤ c ∧ c ≤ '9') ∨ c = '.' ∨ c = '-'
  · have hid : sanChar c = c := by
      unfold sanChar
      rw [if_pos hc]
    rw [hid]
  · have hsan : sanChar c = '_' := by
      unfold sanChar
      rw [if_neg hc]
    have hlc : jsToLower c = c := by
      unfold jsToLower
      rw [if_neg]
      intro h
      exact hc (Or.inr (Or.inl h))
    have hlu : jsToLower '_' = '_' := by decide
    rw [hsan, hlu, hlc]
    constructor
    · intro h
      exfalso
      rcases hd with rfl | rfl | rfl | rfl | rfl | rfl <;> exact absurd h (by decide)
    · intro h
      refine absurd ?_ hc
      rcases hd with rfl | rfl | rfl | rfl | rfl | rfl <;> rw [h] <;> decide

/-- Characterwise version of the previous fact, for a whole extension. -/
theorem map_lower_san_eq_of_targets (l : List Char) (T : List Char)
    (hT : ∀ d ∈ T, extTargetChar d) :
    ((l.map sanChar).map jsToLower = T ↔ l.map jsToLower = T) := by
  induction l generalizing T with
  | nil => exact Iff.rfl
  | cons c cs ih =>
    cases T with
    | nil => simp
    | cons d ds =>
      have hd : extTargetChar d := hT d (List.mem_cons_self d ds)
      have hds : ∀ x ∈ ds, extTargetChar x := fun x hx =>
        hT x (List.mem_cons_of_mem d hx)
      simp only [List.map_cons, List.cons.injEq]
      rw [jsToLower_sanChar_target c d hd, ih ds hds]

/-- The lowercased suffix check for an extension gives the same answer on the
original and on the sanitized file name. -/
theorem strEndsWith_jsLower_sanitize (s suffix : String)
    (hT : ∀ d ∈ suffix.toList.reverse, extTargetChar d) :
    strEndsWith (jsLowerStr (sanitizeFileName s)) suffix =
      strEndsWith (jsLowerStr s) suffix := by
  unfold strEndsWith
  rw [decide_eq_decide]
  show ((s.toList.map sanChar).map jsToLower).reverse.take suffix.toList.length =
      suffix.toList.reverse ↔
    (s.toList.map jsToLower).reverse.take suffix.toList.length =
      suffix.toList.reverse
  simp only [← List.map_reverse, ← List.map_take]
  exact map_lower_san_eq_of_targets _ _ hT

/-- Claim C4: the content type the upload handler stores is the one determined
by the sanitized file name's extension — image/png for a .png ending,
image/gif for a .gif ending, image/jpeg otherwise. -/
theorem c4_content_type_from_sanitized_extension :
    ∀ fileName : String,
      contentTypeOf fileName =
        (if strEndsWith (jsLowerStr (sanitizeFileName fileName)) ".png"
         then "image/png"
         else if strEndsWith (jsLowerStr (sanitizeFileName fileName)) ".gif"
         then "image/gif"
         else "image/jpeg") := by
  intro s
  rw [strEndsWith_jsLower_sanitize s ".png" (by decide),
    strEndsWith_jsLower_sanitize s ".gif" (by decide)]
  rfl
